import Mathlib

/-!
Verification of the racing-game core (src/racing-game/src/game.js and
src/racing-game/src/map.js).

The JavaScript code is shallowly embedded in Lean.  Discrete state
(grids, counters, lap records, telemetry logs, the AI action mailbox)
is embedded over `ℚ`, `ℤ`, `ℕ`, `Bool` and `String`, exactly following
the source; JavaScript number arithmetic on these paths is exact for the
values involved.  The geometric paths (`castRays`, the speed cap), which
use `Math.sqrt`/`Math.cos`/`Math.sin`, are embedded over `ℝ` (idealising
IEEE doubles as real numbers).

Side effects that do not touch the verified state (canvas drawing,
console logging, alerts, DOM text, sound playback) are omitted; each
omission is noted at the definition it concerns.
-/

namespace Racing

/-! ## JSON values

`localStorage` slots and the cells of `TrackEditor.mapGrid` hold
JavaScript values that travel through `JSON.stringify`/`JSON.parse`.
We model the JSON value universe.  None of the editor's operations
recurse into nested arrays, so no recursion over `Json` is needed. -/

/-- A JSON value (`null`, boolean, number, string or array).  Objects do
not occur in any value the track editor produces or inspects and are
omitted. -/
inductive Json where
  | null : Json
  | bool (b : Bool) : Json
  | num (q : ℚ) : Json
  | str (s : String) : Json
  | arr (xs : List Json) : Json

/-- JavaScript truthiness of a JSON value, as used by
`if (pieceType)` in `map.js` (`redrawAllFromGrid`).  `null`, `false`,
`0` and the empty string are falsy; arrays are truthy. -/
def Json.truthy : Json → Bool
  | .null => false
  | .bool b => b
  | .num q => decide (q ≠ 0)
  | .str s => decide (s ≠ "")
  | .arr _ => true

/-! ## Track editor state (map.js) -/

/-- `PIECE_WIDTH` from map.js: a track piece is 100×100 world units. -/
def PIECE_WIDTH : ℚ := 100

/-- `WALL_THICKNESS` from map.js. -/
def WALL_THICKNESS : ℚ := 10

/-- `GRID_WIDTH` from map.js (12 columns). -/
def GRID_WIDTH : ℕ := 12

/-- `GRID_HEIGHT` from map.js (12 rows). -/
def GRID_HEIGHT : ℕ := 12

/-- A Matter.js rectangle body as created by the editor: centre
coordinates, extent and label (plus the sensor flag used by the
finish-line body).  The physics options (`isStatic`, `friction`,
`restitution`) are constants at each creation site and are not part of
any verified property, so they are not carried. -/
structure MBody where
  x : ℚ
  y : ℚ
  w : ℚ
  h : ℚ
  label : String
  isSensor : Bool
deriving DecidableEq

/-- A `Phaser.Geom.Rectangle` (top-left corner, width, height) as pushed
onto `geomWalls` for raycasting. -/
structure GeomRect where
  x : ℚ
  y : ℚ
  width : ℚ
  height : ℚ
deriving DecidableEq

/-- The browser `localStorage` slot `'customMap'`.  A stored string is
represented by the outcome of `JSON.parse` on it: either `malformed`
(parse throws) or `parsed j`.  `JSON.stringify` of a grid produces a
string that parses back to the same JSON value, so `saveTrack` stores
`parsed` of the grid's JSON encoding. -/
inductive StoredVal where
  | absent : StoredVal
  | malformed : StoredVal
  | parsed (j : Json) : StoredVal

/-- The mutable state of a `TrackEditor` (map.js) together with the
`'customMap'` storage slot it reads and writes.  The `graphics` layer
(pure drawing) is omitted. -/
structure EditorState where
  mapGrid : List (List Json)
  geomWalls : List GeomRect
  wallBodies : List MBody
  finishLine : Option MBody
  slot : StoredVal

/-- The grid built by the `TrackEditor` constructor:
`Array(GRID_HEIGHT).fill(null).map(() => Array(GRID_WIDTH).fill(null))`. -/
def emptyGrid : List (List Json) :=
  List.replicate GRID_HEIGHT (List.replicate GRID_WIDTH Json.null)

/-- A fresh `TrackEditor` over a given storage slot content. -/
def initialEditor (s : StoredVal) : EditorState :=
  { mapGrid := emptyGrid
    geomWalls := []
    wallBodies := []
    finishLine := none
    slot := s }

/-- `TrackEditor.addWall(x, y, w, h)`: pushes a static Matter body with
label `'wall'` and the matching `Phaser.Geom.Rectangle`
(`x - w/2`, `y - h/2`, `w`, `h`) for raycasting.  The grey fill drawn on
the graphics layer is omitted. -/
def addWall (st : EditorState) (x y w h : ℚ) : EditorState :=
  { st with
    wallBodies := st.wallBodies ++ [⟨x, y, w, h, "wall", false⟩]
    geomWalls := st.geomWalls ++ [⟨x - w / 2, y - h / 2, w, h⟩] }

/-- `TrackEditor.drawPiece(pieceType, x, y)`: adds the wall segments
(and, for finish-line pieces, the sensor body) belonging to one piece
kind at cell centre `(x, y)`.  The road/`finish` visual fills are
omitted.  Non-string cells and unknown strings fall through the
`switch` and add nothing. -/
def drawPiece (st : EditorState) (pieceType : Json) (x y : ℚ) : EditorState :=
  let topX := x
  let topY := y - PIECE_WIDTH / 2 + WALL_THICKNESS / 2
  let botX := x
  let botY := y + PIECE_WIDTH / 2 - WALL_THICKNESS / 2
  let leftX := x - PIECE_WIDTH / 2 + WALL_THICKNESS / 2
  let leftY := y
  let rightX := x + PIECE_WIDTH / 2 - WALL_THICKNESS / 2
  let rightY := y
  match pieceType with
  | .str s =>
      if s = "road" then st
      else if s = "straight-h" then
        addWall (addWall st topX topY PIECE_WIDTH WALL_THICKNESS)
          botX botY PIECE_WIDTH WALL_THICKNESS
      else if s = "straight-v" then
        addWall (addWall st leftX leftY WALL_THICKNESS PIECE_WIDTH)
          rightX rightY WALL_THICKNESS PIECE_WIDTH
      else if s = "wall-t" then addWall st topX topY PIECE_WIDTH WALL_THICKNESS
      else if s = "wall-b" then addWall st botX botY PIECE_WIDTH WALL_THICKNESS
      else if s = "wall-l" then addWall st leftX leftY WALL_THICKNESS PIECE_WIDTH
      else if s = "wall-r" then addWall st rightX rightY WALL_THICKNESS PIECE_WIDTH
      else if s = "turn-l" then
        addWall (addWall st topX topY PIECE_WIDTH WALL_THICKNESS)
          leftX leftY WALL_THICKNESS PIECE_WIDTH
      else if s = "turn-r" then
        addWall (addWall st topX topY PIECE_WIDTH WALL_THICKNESS)
          rightX rightY WALL_THICKNESS PIECE_WIDTH
      else if s = "turn-bl" then
        addWall (addWall st botX botY PIECE_WIDTH WALL_THICKNESS)
          leftX leftY WALL_THICKNESS PIECE_WIDTH
      else if s = "turn-br" then
        addWall (addWall st botX botY PIECE_WIDTH WALL_THICKNESS)
          rightX rightY WALL_THICKNESS PIECE_WIDTH
      else if s = "finish-line-h" then
        let st := { st with finishLine := some ⟨x, y, 10, PIECE_WIDTH, "finishLine", true⟩ }
        addWall (addWall st topX topY PIECE_WIDTH WALL_THICKNESS)
          botX botY PIECE_WIDTH WALL_THICKNESS
      else if s = "finish-line-v" then
        let st := { st with finishLine := some ⟨x, y, PIECE_WIDTH, 10, "finishLine", true⟩ }
        addWall (addWall st leftX leftY WALL_THICKNESS PIECE_WIDTH)
          rightX rightY WALL_THICKNESS PIECE_WIDTH
      else st
  | _ => st

/-- `TrackEditor.redrawAllFromGrid()`: removes every wall body, every
geometry rectangle and the finish-line sensor, then walks the grid in
row-major order and re-instantiates each truthy cell via `drawPiece` at
its cell centre `(x·W + W/2, y·W + W/2)`.  The background fill is
omitted. -/
def redrawAllFromGrid (st : EditorState) : EditorState :=
  let cleared : EditorState :=
    { st with geomWalls := [], wallBodies := [], finishLine := none }
  (List.range GRID_HEIGHT).foldl
    (fun s y =>
      (List.range GRID_WIDTH).foldl
        (fun s x =>
          let pieceType := (st.mapGrid.getD y []).getD x Json.null
          if pieceType.truthy then
            drawPiece s pieceType
              ((x : ℚ) * PIECE_WIDTH + PIECE_WIDTH / 2)
              ((y : ℚ) * PIECE_WIDTH + PIECE_WIDTH / 2)
          else s)
        s)
    cleared

/-- The grid-snapping computation used by `addTrackPiece` on each axis:
`Math.floor((c - PIECE_WIDTH / 2) / PIECE_WIDTH)` (map.js lines 63-64). -/
def dropGridIndex (c : ℚ) : ℤ :=
  Int.floor ((c - PIECE_WIDTH / 2) / PIECE_WIDTH)

/-- `TrackEditor.addTrackPiece(pieceType, x, y)`: maps the world drop
point to a grid cell, rejects out-of-range cells with a console error
and no mutation, otherwise writes the cell (`null` for the `'road'`
eraser) and triggers a full rebuild via `redrawAllFromGrid`. -/
def addTrackPiece (st : EditorState) (pieceType : String) (x y : ℚ) : EditorState :=
  let gridX := dropGridIndex x
  let gridY := dropGridIndex y
  if 0 ≤ gridY ∧ gridY < (GRID_HEIGHT : ℤ) ∧ 0 ≤ gridX ∧ gridX < (GRID_WIDTH : ℤ) then
    let v : Json := if pieceType = "road" then Json.null else Json.str pieceType
    let st := { st with
      mapGrid := st.mapGrid.set gridY.toNat
        ((st.mapGrid.getD gridY.toNat []).set gridX.toNat v) }
    redrawAllFromGrid st
  else
    st

/-- JSON encoding of a map grid, the parse result of
`JSON.stringify(this.mapGrid)`: an array of row arrays. -/
def gridToJson (g : List (List Json)) : Json :=
  Json.arr (g.map Json.arr)

/-- The inverse projection used after a successful shape validation:
each element of the outer array is an array and becomes a row.  (The
`[]` fallbacks are never exercised on values accepted by
`_isValidMapGrid`.) -/
def jsonToGrid (j : Json) : List (List Json) :=
  match j with
  | .arr rows => rows.map (fun r => match r with | .arr cs => cs | _ => [])
  | _ => []

/-- `TrackEditor._isValidMapGrid(gridData)`: the value is an array of
exactly `GRID_HEIGHT` rows, each of which is an array of exactly
`GRID_WIDTH` cells.  Cell contents are not inspected. -/
def isValidMapGrid (j : Json) : Bool :=
  match j with
  | .arr rows =>
      rows.length == GRID_HEIGHT &&
        rows.all (fun r => match r with
          | .arr cs => cs.length == GRID_WIDTH
          | _ => false)
  | _ => false

/-- `TrackEditor.saveTrack()`: writes
`JSON.stringify(this.mapGrid)` to the `'customMap'` slot.  The alert and
console log are omitted. -/
def saveTrack (st : EditorState) : EditorState :=
  { st with slot := StoredVal.parsed (gridToJson st.mapGrid) }

/-- `TrackEditor.loadTrack()`: reads the `'customMap'` slot.  No stored
value: redraw, return `false`.  Parse failure: purge the slot, redraw,
return `false`.  Shape validation failure: purge the slot, redraw,
return `false`.  Otherwise adopt the loaded grid, redraw, return
`true`.  Every branch returns normally (the only `JSON.parse` call sits
inside `try`/`catch`); console output is omitted. -/
def loadTrack (st : EditorState) : EditorState × Bool :=
  match st.slot with
  | .absent => (redrawAllFromGrid st, false)
  | .malformed =>
      (redrawAllFromGrid { st with slot := StoredVal.absent }, false)
  | .parsed j =>
      if isValidMapGrid j then
        (redrawAllFromGrid { st with mapGrid := jsonToGrid j }, true)
      else
        (redrawAllFromGrid { st with slot := StoredVal.absent }, false)

/-- A stored `'customMap'` value that `loadTrack` rejects: either the
stored string fails to parse, or its parse is not an exact
`GRID_HEIGHT × GRID_WIDTH` array of arrays. -/
def badStored : StoredVal → Bool
  | .absent => false
  | .malformed => true
  | .parsed j => !isValidMapGrid j

/-- Shape of a well-formed in-memory grid (the constructor's grid and
every grid accepted by `loadTrack` have it). -/
def validShape (g : List (List Json)) : Bool :=
  g.length == GRID_HEIGHT && g.all (fun r => r.length == GRID_WIDTH)

/-! ## Lap / finish-line state machine (game.js `completeLap`)

Timestamps are `this.time.now` values in milliseconds; lap durations are
stored in seconds (`(now - startTime) / 1000.0`).  The 5-second re-arm
is a `delayedCall(5000, ...)`; we carry the scheduled firing time in
`rearmAt` and fire it when the clock reaches it. -/

/-- One agent's entry of `GameScene.lapData`, plus the pending
`delayedCall` that re-arms `canTrigger` (present exactly while a
cooldown is running). -/
structure LapData where
  count : ℤ
  startTime : ℚ
  lastLap : ℚ
  bestLap : ℚ
  canTrigger : Bool
  rearmAt : Option ℚ
deriving DecidableEq

/-- The constructor's lap entry (`count: -1`, timers zero,
`canTrigger: true`); `startTime` is set to the scene clock at `create`,
kept as a parameter. -/
def initLap (startTime : ℚ) : LapData :=
  { count := -1
    startTime := startTime
    lastLap := 0
    bestLap := 0
    canTrigger := true
    rearmAt := none }

/-- Advance the Phaser clock to `now`: a pending 5-second
`delayedCall` whose scheduled time has been reached fires and sets
`canTrigger` back to `true`. -/
def fireDueTimer (d : LapData) (now : ℚ) : LapData :=
  match d.rearmAt with
  | some t => if t ≤ now then { d with canTrigger := true, rearmAt := none } else d
  | none => d

/-- `GameScene.completeLap` at clock time `now`: debounced by
`canTrigger`; on an armed crossing it records the lap (skipped while
`count < 0`), increments the counter, restarts the lap timer and
schedules the 5-second re-arm.  The lap-complete announcement and UI
update are omitted. -/
def completeLap (d : LapData) (now : ℚ) : LapData :=
  if !d.canTrigger then d
  else
    let d := { d with canTrigger := false }
    let d :=
      if 0 ≤ d.count then
        let lapTime := (now - d.startTime) / 1000
        let d := { d with lastLap := lapTime }
        if lapTime < d.bestLap ∨ d.bestLap = 0 then { d with bestLap := lapTime } else d
      else d
    { d with count := d.count + 1, startTime := now, rearmAt := some (now + 5000) }

/-- A finish-line crossing event delivered at clock time `t`: the clock
first advances to `t` (firing a due re-arm timer), then the
`collisionstart` handler runs `completeLap`. -/
def crossAt (d : LapData) (t : ℚ) : LapData :=
  completeLap (fireDueTimer d t) t

/-- A chronological sequence of finish-line crossing events. -/
def runCrossings (d : LapData) (ts : List ℚ) : LapData :=
  ts.foldl crossAt d

/-! ## AI agent (game.js `AIAgent`) -/

/-- An AI control action (`latestAction`): thrust and angular
velocity. -/
structure Action where
  thrust : ℚ
  angularVelocity : ℚ
deriving DecidableEq

/-- WebSocket ready states relevant to `AIAgent` (`update` only
distinguishes `OPEN` from the rest). -/
inductive ReadyState where
  | connecting : ReadyState
  | opened : ReadyState
  | closed : ReadyState
deriving DecidableEq

/-- The per-frame agent state record serialized to the policy socket in
`GameScene.update`. -/
structure AiStateMsg where
  x : ℚ
  y : ℚ
  vx : ℚ
  vy : ℚ
  angle : ℚ
  rayDistances : List ℚ
deriving DecidableEq

/-- The `AIAgent` object: its two scaling constants, the `latestAction`
mailbox, the socket's ready state, and the list of state records sent so
far (`socket.send` is fire-and-forget; we log it to state what was
sent). -/
structure AIAgent where
  ACCELERATION_FORCE : ℚ
  ANGULAR_VELOCITY : ℚ
  latestAction : Action
  ready : ReadyState
  sentLog : List AiStateMsg
deriving DecidableEq

/-- A fresh `AIAgent` (constructor): zero action, socket still
connecting. -/
def AIAgent.init (accel angular : ℚ) : AIAgent :=
  { ACCELERATION_FORCE := accel
    ANGULAR_VELOCITY := angular
    latestAction := ⟨0, 0⟩
    ready := ReadyState.connecting
    sentLog := [] }

/-- The `socket.onclose` handler: the socket is now closed and
`latestAction` is forced to `{thrust: 0, angularVelocity: 0}`.  The
console error is omitted. -/
def AIAgent.onclose (a : AIAgent) : AIAgent :=
  { a with ready := ReadyState.closed, latestAction := ⟨0, 0⟩ }

/-- The `socket.onmessage` handler: overwrites `latestAction` with the
scaled policy output (last write wins). -/
def AIAgent.onmessage (a : AIAgent) (throttle steering : ℚ) : AIAgent :=
  { a with latestAction :=
      ⟨throttle * a.ACCELERATION_FORCE, steering * a.ANGULAR_VELOCITY⟩ }

/-- `AIAgent.update(state)`: sends the state only while the socket is
`OPEN`, and always returns `latestAction`. -/
def AIAgent.update (a : AIAgent) (st : AiStateMsg) : Action × AIAgent :=
  if a.ready = ReadyState.opened then
    (a.latestAction, { a with sentLog := a.sentLog ++ [st] })
  else
    (a.latestAction, a)

/-! ## Telemetry and crash counter (game.js `GameScene`)

The slice of `GameScene` state read and written by `onPlayerWallHit`
and by the telemetry-recording block of `update`.  The physics, input,
raycasting and AI-control parts of `update` touch none of these fields
(the speed cap is modelled separately below). -/

/-- A 2-vector with rational components. -/
structure QVec where
  x : ℚ
  y : ℚ
deriving DecidableEq

/-- The projection of a `createTelemetryFrame` record onto the state
carried here (the full record also snapshots positions, angles, inputs
and both ray arrays, none of which the verified properties mention). -/
structure TeleFrame where
  playerVelX : ℚ
  playerVelY : ℚ
  crashed : Bool
deriving DecidableEq

/-- The telemetry/crash slice of `GameScene`. -/
structure GameState where
  playerVel : QVec
  crashCount : ℕ
  hasBody : Bool
  isRecording : Bool
  telemetryData : List TeleFrame
  frameCount : ℕ
deriving DecidableEq

/-- `GameScene.createTelemetryFrame(crashed)`, projected onto the
carried fields. -/
def createTelemetryFrame (s : GameState) (crashed : Bool) : TeleFrame :=
  ⟨s.playerVel.x, s.playerVel.y, crashed⟩

/-- `GameScene.onPlayerWallHit()`: guarded by the body's existence;
increments the crash counter, halves both velocity components
(`setVelocity(v.x * 0.5, v.y * 0.5)`), and, while recording, appends a
crash-flagged telemetry frame.  Crash text, crash sound: omitted. -/
def onPlayerWallHit (s : GameState) : GameState :=
  if !s.hasBody then s
  else
    let s := { s with crashCount := s.crashCount + 1 }
    let s := { s with playerVel := ⟨s.playerVel.x * (1/2), s.playerVel.y * (1/2)⟩ }
    if s.isRecording then
      { s with telemetryData := s.telemetryData ++ [createTelemetryFrame s true] }
    else s

/-- The telemetry-recording block of `GameScene.update` (the
`frameCount` increment at the top of `update`, the SPACE toggle with its
crash-counter reset, and the every-third-frame sampling push).  UI text
changes are omitted; the velocity/physics part of `update` does not
touch these fields; the explicit user actions at the end of `update`
(E: export-and-clear, R: scene restart) are outside the per-frame
recording behaviour modelled here. -/
def updateTelemetry (s : GameState) (spaceJustDown : Bool) : GameState :=
  let s := { s with frameCount := s.frameCount + 1 }
  let s :=
    if spaceJustDown then
      let s := { s with isRecording := !s.isRecording }
      if s.isRecording then { s with crashCount := 0 } else s
    else s
  if s.isRecording && s.frameCount % 3 == 0 then
    { s with telemetryData := s.telemetryData ++ [createTelemetryFrame s false] }
  else s

/-- Wall-hit collision events delivered by the Matter step of one frame
(each runs `onPlayerWallHit`). -/
def applyWallHits (s : GameState) : ℕ → GameState
  | 0 => s
  | n + 1 => applyWallHits (onPlayerWallHit s) n

/-- One whole frame for the telemetry slice: the Matter world steps on
the scene `UPDATE` event (delivering `collisionstart` callbacks) before
the scene's `update` method runs. -/
def gameFrame (s : GameState) (hits : ℕ) (spaceJustDown : Bool) : GameState :=
  updateTelemetry (applyWallHits s hits) spaceJustDown

/-! ## Speed limiting (game.js `update`, lines 535-543)

Phaser's Matter physics world updates on the scene `UPDATE` event,
which fires before the scene's `update` callback runs in the same
frame, so `this.playerCar.body.velocity` read here is the velocity the
engine's integration step produced for this frame; `limitSpeed` below
is the transform `update` applies to it. -/

/-- `MAX_SPEED` from the `GameScene` constructor. -/
def MAX_SPEED : ℝ := 600

/-- A velocity vector with real components (idealised doubles). -/
@[ext]
structure RVec where
  x : ℝ
  y : ℝ

/-- `Math.sqrt(velocity.x * velocity.x + velocity.y * velocity.y)`. -/
noncomputable def speedOf (v : RVec) : ℝ :=
  Real.sqrt (v.x * v.x + v.y * v.y)

/-- The speed-limiting step of `GameScene.update`: when the
post-integration speed exceeds `MAX_SPEED`, `setVelocity` rescales both
components by `MAX_SPEED / speed`; otherwise the velocity is left
alone. -/
noncomputable def limitSpeed (v : RVec) : RVec :=
  let currentSpeed := speedOf v
  if currentSpeed > MAX_SPEED then
    ⟨v.x / currentSpeed * MAX_SPEED, v.y / currentSpeed * MAX_SPEED⟩
  else v

/-! ## Ray casting (game.js `castRays`, lines 285-358)

Coordinates, angles and distances are real numbers.  The
`Phaser.Geom.Intersects` routines called by `castRays` are embedded
from Phaser's published sources: `LineToLine` is the standard
two-segment intersection (parameters `uA` along the first line and `uB`
along the second must both lie in `[0, 1]`; parallel/collinear pairs
report no intersection), and `GetLineToRectangle` collects the
`LineToLine` intersections of the segment with the rectangle's four
edges (its initial `LineToRectangle` test is a pure short-circuit:
when it fails, none of the four edge tests can succeed). -/

/-- `RAY_LENGTH` from the `GameScene` constructor. -/
def RAY_LENGTH : ℝ := 200

/-- A 2-D point (`Phaser.Geom.Point`). -/
structure RPt where
  x : ℝ
  y : ℝ

/-- A `Phaser.Geom.Line`: the segment from `(x1, y1)` to `(x2, y2)`. -/
structure RSeg where
  x1 : ℝ
  y1 : ℝ
  x2 : ℝ
  y2 : ℝ

/-- A `Phaser.Geom.Rectangle`: top-left corner and extent. -/
structure RRect where
  x : ℝ
  y : ℝ
  w : ℝ
  h : ℝ

/-- The `numA` local of `Phaser.Geom.Intersects.LineToLine`. -/
def llNumA (l1 l2 : RSeg) : ℝ :=
  (l2.x2 - l2.x1) * (l1.y1 - l2.y1) - (l2.y2 - l2.y1) * (l1.x1 - l2.x1)

/-- The `numB` local of `Phaser.Geom.Intersects.LineToLine`. -/
def llNumB (l1 l2 : RSeg) : ℝ :=
  (l1.x2 - l1.x1) * (l1.y1 - l2.y1) - (l1.y2 - l1.y1) * (l1.x1 - l2.x1)

/-- The `deNom` local of `Phaser.Geom.Intersects.LineToLine`. -/
def llDenom (l1 l2 : RSeg) : ℝ :=
  (l2.y2 - l2.y1) * (l1.x2 - l1.x1) - (l2.x2 - l2.x1) * (l1.y2 - l1.y1)

/-- `Phaser.Geom.Intersects.LineToLine(l1, l2, out)`: the intersection
point of segments `l1` and `l2`, or `none` when the denominator
vanishes (parallel/collinear) or a parameter `uA` (along `l1`) or `uB`
(along `l2`) leaves `[0, 1]`.  The output point is parameterised along
`l1`. -/
noncomputable def lineToLine (l1 l2 : RSeg) : Option RPt :=
  if llDenom l1 l2 = 0 then none
  else
    if 0 ≤ llNumA l1 l2 / llDenom l1 l2 ∧ llNumA l1 l2 / llDenom l1 l2 ≤ 1 ∧
        0 ≤ llNumB l1 l2 / llDenom l1 l2 ∧ llNumB l1 l2 / llDenom l1 l2 ≤ 1 then
      some ⟨l1.x1 + llNumA l1 l2 / llDenom l1 l2 * (l1.x2 - l1.x1),
            l1.y1 + llNumA l1 l2 / llDenom l1 l2 * (l1.y2 - l1.y1)⟩
    else none

/-- The rectangle's top edge (`Rectangle.getLineA`). -/
def RRect.lineA (r : RRect) : RSeg := ⟨r.x, r.y, r.x + r.w, r.y⟩

/-- The rectangle's right edge (`Rectangle.getLineB`). -/
def RRect.lineB (r : RRect) : RSeg := ⟨r.x + r.w, r.y, r.x + r.w, r.y + r.h⟩

/-- The rectangle's bottom edge (`Rectangle.getLineC`). -/
def RRect.lineC (r : RRect) : RSeg := ⟨r.x + r.w, r.y + r.h, r.x, r.y + r.h⟩

/-- The rectangle's left edge (`Rectangle.getLineD`). -/
def RRect.lineD (r : RRect) : RSeg := ⟨r.x, r.y + r.h, r.x, r.y⟩

/-- `Phaser.Geom.Intersects.GetLineToRectangle(line, rect)`: the
intersection points of the segment with the rectangle's four edges
(each edge is passed to `LineToLine` as the first line). -/
noncomputable def getLineToRectangle (ray : RSeg) (r : RRect) : List RPt :=
  [r.lineA, r.lineB, r.lineC, r.lineD].filterMap (fun e => lineToLine e ray)

/-- The closed-polygon edges walked by the hull loop in `castRays`:
`points[i]` to `points[(i + 1) % points.length]`. -/
def polyEdges (pts : List RPt) : List RSeg :=
  (List.range pts.length).map (fun i =>
    let p1 := pts.getD i ⟨0, 0⟩
    let p2 := pts.getD ((i + 1) % pts.length) ⟨0, 0⟩
    ⟨p1.x, p1.y, p2.x, p2.y⟩)

/-- The hull branch of `castRays` for one polygon: polygons with fewer
than two points are skipped, otherwise the ray (first line) is tested
against every wrap-around edge (second line). -/
noncomputable def polyIntersections (ray : RSeg) (pts : List RPt) : List RPt :=
  if pts.length < 2 then []
  else (polyEdges pts).filterMap (fun e => lineToLine ray e)

/-- All candidate hit points one ray collects, in source order: first
the wall-rectangle intersections, then the hull-edge intersections. -/
noncomputable def rayCandidates (ray : RSeg) (walls : List RRect)
    (polys : List (List RPt)) : List RPt :=
  (walls.map (getLineToRectangle ray)).flatten ++
    (polys.map (polyIntersections ray)).flatten

/-- `Phaser.Math.Distance.Between(x1, y1, x2, y2)`. -/
noncomputable def distBetween (x1 y1 x2 y2 : ℝ) : ℝ :=
  Real.sqrt ((x2 - x1) * (x2 - x1) + (y2 - y1) * (y2 - y1))

/-- The body of the `rayAngles.forEach` loop for one ray: starting from
`closestDistance = RAY_LENGTH`, every candidate hit point closer than
the best so far replaces it; the stored reading is
`closestDistance / RAY_LENGTH`.  (`closestHitPoint` feeds only the
debug drawing and is omitted.) -/
noncomputable def castSingleRay (carX carY angle : ℝ) (walls : List RRect)
    (polys : List (List RPt)) : ℝ :=
  let endX := carX + Real.cos angle * RAY_LENGTH
  let endY := carY + Real.sin angle * RAY_LENGTH
  let rayLine : RSeg := ⟨carX, carY, endX, endY⟩
  let closest := (rayCandidates rayLine walls polys).foldl
    (fun c p => if distBetween carX carY p.x p.y < c then distBetween carX carY p.x p.y else c)
    RAY_LENGTH
  closest / RAY_LENGTH

/-- An agent pose as read by `castRays` (`car.x`, `car.y`,
`car.rotation`). -/
structure Pose where
  x : ℝ
  y : ℝ
  rotation : ℝ

/-- The seven heading-relative ray angles of `castRays`, in output
order: front, front-left, front-right, left, right, rear-left,
rear-right. -/
noncomputable def rayAngles (rotation : ℝ) : List ℝ :=
  [rotation,
   rotation - Real.pi / 4,
   rotation + Real.pi / 4,
   rotation - Real.pi / 2,
   rotation + Real.pi / 2,
   rotation - 3 * Real.pi / 4,
   rotation + 3 * Real.pi / 4]

/-- `GameScene.castRays(car, graphics, distances, walls, otherPolygons,
rayColor)`: fills the seven-entry distance array.  The `graphics`
drawing and `rayColor` affect only the debug overlay and are
omitted. -/
noncomputable def castRays (car : Pose) (walls : List RRect)
    (polys : List (List RPt)) : List ℝ :=
  (rayAngles car.rotation).map (fun a => castSingleRay car.x car.y a walls polys)

/-- The ray segment `castRays` builds for ray index `i`. -/
noncomputable def raySeg (car : Pose) (i : Fin 7) : RSeg :=
  let a := (rayAngles car.rotation).getD i.val 0
  ⟨car.x, car.y, car.x + Real.cos a * RAY_LENGTH, car.y + Real.sin a * RAY_LENGTH⟩

/-- The minimum of a list of reals, with a default for the empty
list. -/
noncomputable def minOfList (l : List ℝ) (dflt : ℝ) : ℝ :=
  match l with
  | [] => dflt
  | d :: ds => ds.foldl min d

/-- The claim-side reading of one ray: the minimum of the origin-to-hit
distances over all candidate hit points, defaulting to `RAY_LENGTH`
when there is none. -/
noncomputable def minHitDist (carX carY : ℝ) (cands : List RPt) : ℝ :=
  minOfList (cands.map (fun p => distBetween carX carY p.x p.y)) RAY_LENGTH

/-! ## Theorems -/

/-- C8: the drop-point-to-grid mapping of `addTrackPiece` is
`floor((coordinate - PIECE_WIDTH/2) / PIECE_WIDTH)` on each axis
(`dropGridIndex` is the computation `addTrackPiece` applies to both
`x` and `y`), and a world point lying exactly on a piece boundary
(`k · PIECE_WIDTH` for integer `k`) resolves to the lower-index cell
`k - 1`. -/
theorem dropGrid_floor_and_boundary :
    (∀ c : ℚ, dropGridIndex c = Int.floor ((c - 100 / 2) / 100)) ∧
    (∀ k : ℤ, dropGridIndex ((k : ℚ) * PIECE_WIDTH) = k - 1) := by
  constructor
  · intro c; rfl
  · intro k
    unfold dropGridIndex PIECE_WIDTH
    have h : ((k : ℚ) * 100 - 100 / 2) / 100 = ((k - 1 : ℤ) : ℚ) + 1 / 2 := by
      push_cast; ring
    rw [h, Int.floor_int_add]
    norm_num

/-- C6: a player-wall collision (with the player's body present, as it
is throughout a live scene) halves both components of the player's
velocity and increments the crash counter by exactly one. -/
theorem wallHit_halves_velocity_increments_crashes (s : GameState)
    (h : s.hasBody = true) :
    (onPlayerWallHit s).playerVel =
        ⟨s.playerVel.x * (1/2), s.playerVel.y * (1/2)⟩ ∧
    (onPlayerWallHit s).crashCount = s.crashCount + 1 := by
  unfold onPlayerWallHit
  rw [h]
  simp only [Bool.not_true, Bool.false_eq_true, if_false]
  split <;> simp

/-- Witness for C6 at a concrete state. -/
theorem wallHit_halves_velocity_increments_crashes_witness :
    (onPlayerWallHit ⟨⟨6, -4⟩, 3, true, true, [], 0⟩).playerVel =
        ⟨6 * (1/2), (-4) * (1/2)⟩ ∧
    (onPlayerWallHit ⟨⟨6, -4⟩, 3, true, true, [], 0⟩).crashCount = 3 + 1 :=
  wallHit_halves_velocity_increments_crashes ⟨⟨6, -4⟩, 3, true, true, [], 0⟩ rfl

/-- C5: after the policy channel's close event, the action returned to
the next frame is exactly `{thrust: 0, angularVelocity: 0}` whatever the
previously received action was (and that frame's `update` sends
nothing); and whenever the channel is merely not open, `update` sends no
state and returns the last known action with the agent otherwise
unchanged. -/
theorem aiAgent_failsafe_holds :
    (∀ (a : AIAgent) (st : AiStateMsg),
        ((a.onclose).update st).1 = ⟨0, 0⟩ ∧ ((a.onclose).update st).2 = a.onclose) ∧
    (∀ (a : AIAgent) (st : AiStateMsg), a.ready ≠ ReadyState.opened →
        (a.update st).1 = a.latestAction ∧ (a.update st).2 = a) := by
  constructor
  · intro a st
    simp [AIAgent.onclose, AIAgent.update]
  · intro a st h
    simp [AIAgent.update, h]

/-- Witness for C5: a still-connecting agent holds its action and sends
nothing. -/
theorem aiAgent_failsafe_holds_witness :
    ((AIAgent.update ⟨1, 2, ⟨3, 4⟩, ReadyState.connecting, []⟩ ⟨0, 0, 0, 0, 0, []⟩).1 = ⟨3, 4⟩ ∧
     (AIAgent.update ⟨1, 2, ⟨3, 4⟩, ReadyState.connecting, []⟩ ⟨0, 0, 0, 0, 0, []⟩).2 =
        ⟨1, 2, ⟨3, 4⟩, ReadyState.connecting, []⟩) :=
  aiAgent_failsafe_holds.2 ⟨1, 2, ⟨3, 4⟩, ReadyState.connecting, []⟩ ⟨0, 0, 0, 0, 0, []⟩
    (by decide)

/-- C10: toggling recording from off to on resets the crash counter to
zero; toggling from on to off leaves it unchanged. -/
theorem recording_toggle_crash_reset (s : GameState) :
    (s.isRecording = false →
        (updateTelemetry s true).crashCount = 0 ∧
        (updateTelemetry s true).isRecording = true) ∧
    (s.isRecording = true →
        (updateTelemetry s true).crashCount = s.crashCount ∧
        (updateTelemetry s true).isRecording = false) := by
  constructor
  · intro h
    unfold updateTelemetry
    rw [h]
    simp only [Bool.not_false, if_true, if_pos rfl]
    split <;> simp
  · intro h
    unfold updateTelemetry
    rw [h]
    simp

/-- Witness for C10 at two concrete states, one recording and one
not. -/
theorem recording_toggle_crash_reset_witness :
    ((updateTelemetry ⟨⟨0, 0⟩, 7, true, false, [], 0⟩ true).crashCount = 0 ∧
     (updateTelemetry ⟨⟨0, 0⟩, 7, true, false, [], 0⟩ true).isRecording = true) ∧
    ((updateTelemetry ⟨⟨0, 0⟩, 7, true, true, [], 0⟩ true).crashCount = 7 ∧
     (updateTelemetry ⟨⟨0, 0⟩, 7, true, true, [], 0⟩ true).isRecording = false) :=
  ⟨(recording_toggle_crash_reset ⟨⟨0, 0⟩, 7, true, false, [], 0⟩).1 rfl,
   (recording_toggle_crash_reset ⟨⟨0, 0⟩, 7, true, true, [], 0⟩).2 rfl⟩

/-- A crossing whose clock time has reached a pending re-arm first
fires the timer, then runs `completeLap` on the re-armed record. -/
lemma crossAt_rearmed (d : LapData) (t now : ℚ) (h : d.rearmAt = some t)
    (hle : t ≤ now) :
    crossAt d now = completeLap { d with canTrigger := true, rearmAt := none } now := by
  unfold crossAt fireDueTimer
  simp only [h, if_pos hle]

/-- A crossing inside a still-running cooldown does nothing. -/
lemma crossAt_cooling (d : LapData) (t now : ℚ) (h : d.rearmAt = some t)
    (hlt : ¬ t ≤ now) (hct : d.canTrigger = false) :
    crossAt d now = d := by
  unfold crossAt fireDueTimer
  simp only [h, if_neg hlt]
  unfold completeLap
  simp [hct]

/-- A crossing with no pending timer goes straight to `completeLap`. -/
lemma crossAt_idle (d : LapData) (now : ℚ) (h : d.rearmAt = none) :
    crossAt d now = completeLap d now := by
  unfold crossAt fireDueTimer
  simp only [h]

/-- The effect of `completeLap` on an armed, already-started lap record
(`count ≥ 0`). -/
lemma completeLap_armed (d : LapData) (now : ℚ) (hc : d.canTrigger = true)
    (h0 : 0 ≤ d.count) :
    completeLap d now =
      { count := d.count + 1
        startTime := now
        lastLap := (now - d.startTime) / 1000
        bestLap :=
          if (now - d.startTime) / 1000 < d.bestLap ∨ d.bestLap = 0 then
            (now - d.startTime) / 1000
          else d.bestLap
        canTrigger := false
        rearmAt := some (now + 5000) } := by
  unfold completeLap
  rw [hc]
  simp only [Bool.not_true, Bool.false_eq_true, if_false, if_pos h0]
  split <;> rfl

/-- C3: from the initial lap record, three crossings more than the
5-second cooldown apart yield lap count 2 (the first crossing is
absorbed), a last lap of `t2 - t1` (in seconds; timestamps are in
milliseconds), and a best lap equal to the minimum of the two recorded
laps; an extra crossing strictly inside the cooldown window after `t1`
changes nothing. -/
theorem lap_sequence_two_laps (s0 t0 t1 t2 te : ℚ)
    (h10 : 5000 < t1 - t0) (h21 : 5000 < t2 - t1)
    (hel : t1 < te) (heu : te < t1 + 5000) :
    (runCrossings (initLap s0) [t0, t1, t2]).count = 2 ∧
    (runCrossings (initLap s0) [t0, t1, t2]).lastLap = (t2 - t1) / 1000 ∧
    (runCrossings (initLap s0) [t0, t1, t2]).bestLap =
      min ((t1 - t0) / 1000) ((t2 - t1) / 1000) ∧
    runCrossings (initLap s0) [t0, t1, te, t2] =
      runCrossings (initLap s0) [t0, t1, t2] ∧
    crossAt (runCrossings (initLap s0) [t0, t1]) te =
      runCrossings (initLap s0) [t0, t1] := by
  have e0 : crossAt (initLap s0) t0 = ⟨0, t0, 0, 0, false, some (t0 + 5000)⟩ := by
    rw [crossAt_idle _ _ rfl]
    unfold completeLap initLap
    norm_num
  have e1 : crossAt ⟨0, t0, 0, 0, false, some (t0 + 5000)⟩ t1 =
      ⟨1, t1, (t1 - t0) / 1000, (t1 - t0) / 1000, false, some (t1 + 5000)⟩ := by
    rw [crossAt_rearmed _ (t0 + 5000) _ rfl (by linarith)]
    rw [completeLap_armed _ _ rfl (by norm_num)]
    simp
  have e2 : crossAt ⟨1, t1, (t1 - t0) / 1000, (t1 - t0) / 1000, false,
        some (t1 + 5000)⟩ te =
      ⟨1, t1, (t1 - t0) / 1000, (t1 - t0) / 1000, false, some (t1 + 5000)⟩ :=
    crossAt_cooling _ (t1 + 5000) _ rfl (by linarith) rfl
  have e3 : crossAt ⟨1, t1, (t1 - t0) / 1000, (t1 - t0) / 1000, false,
        some (t1 + 5000)⟩ t2 =
      ⟨2, t2, (t2 - t1) / 1000, min ((t1 - t0) / 1000) ((t2 - t1) / 1000),
        false, some (t2 + 5000)⟩ := by
    have hl1 : (0 : ℚ) < (t1 - t0) / 1000 := by
      have h0 : (0 : ℚ) < t1 - t0 := by linarith
      positivity
    have hbest :
        (if (t2 - t1) / 1000 < (t1 - t0) / 1000 ∨ (t1 - t0) / 1000 = 0 then
          (t2 - t1) / 1000
        else (t1 - t0) / 1000) =
          min ((t1 - t0) / 1000) ((t2 - t1) / 1000) := by
      rcases lt_or_le ((t2 - t1) / 1000) ((t1 - t0) / 1000) with h | h
      · rw [if_pos (Or.inl h), min_eq_right h.le]
      · rw [if_neg, min_eq_left h]
        push_neg
        exact ⟨h, ne_of_gt hl1⟩
    rw [crossAt_rearmed _ (t1 + 5000) _ rfl (by linarith)]
    rw [completeLap_armed _ _ rfl (by norm_num)]
    dsimp only
    rw [hbest]
    norm_num
  have r2 : runCrossings (initLap s0) [t0, t1] =
      ⟨1, t1, (t1 - t0) / 1000, (t1 - t0) / 1000, false, some (t1 + 5000)⟩ := by
    unfold runCrossings
    simp only [List.foldl_cons, List.foldl_nil, e0, e1]
  have r3 : runCrossings (initLap s0) [t0, t1, t2] =
      ⟨2, t2, (t2 - t1) / 1000, min ((t1 - t0) / 1000) ((t2 - t1) / 1000),
        false, some (t2 + 5000)⟩ := by
    unfold runCrossings
    simp only [List.foldl_cons, List.foldl_nil, e0, e1, e3]
  have r4 : runCrossings (initLap s0) [t0, t1, te, t2] =
      runCrossings (initLap s0) [t0, t1, t2] := by
    unfold runCrossings
    simp only [List.foldl_cons, List.foldl_nil, e0, e1, e2]
  refine ⟨?_, ?_, ?_, r4, ?_⟩
  · rw [r3]
  · rw [r3]
  · rw [r3]
  · rw [r2, e2]

/-- Witness for C3 at concrete times: crossings at 0, 6000, 13000 ms
with an extra crossing at 7000 ms inside the second cooldown. -/
theorem lap_sequence_two_laps_witness :
    (runCrossings (initLap 0) [0, 6000, 13000]).count = 2 ∧
    (runCrossings (initLap 0) [0, 6000, 13000]).lastLap = (13000 - 6000) / 1000 ∧
    (runCrossings (initLap 0) [0, 6000, 13000]).bestLap =
      min ((6000 - 0) / 1000) ((13000 - 6000) / 1000) ∧
    runCrossings (initLap 0) [0, 6000, 7000, 13000] =
      runCrossings (initLap 0) [0, 6000, 13000] ∧
    crossAt (runCrossings (initLap 0) [0, 6000]) 7000 =
      runCrossings (initLap 0) [0, 6000] :=
  lap_sequence_two_laps 0 0 6000 13000 7000 (by norm_num) (by norm_num)
    (by norm_num) (by norm_num)

/-- `onPlayerWallHit` leaves the recording flag, body flag and frame
counter alone. -/
lemma wallHit_preserves (s : GameState) :
    (onPlayerWallHit s).isRecording = s.isRecording ∧
    (onPlayerWallHit s).hasBody = s.hasBody ∧
    (onPlayerWallHit s).frameCount = s.frameCount := by
  cases hb : s.hasBody <;> cases hr : s.isRecording <;>
    simp [onPlayerWallHit, hb, hr]

/-- One wall hit appends one telemetry frame exactly when the body is
present and recording is active. -/
lemma wallHit_tele_length (s : GameState) :
    (onPlayerWallHit s).telemetryData.length =
      s.telemetryData.length +
        (if s.isRecording = true ∧ s.hasBody = true then 1 else 0) := by
  unfold onPlayerWallHit
  cases hb : s.hasBody with
  | false => simp [hb]
  | true =>
      cases hr : s.isRecording with
      | false => simp [hb, hr]
      | true => simp [hb, hr]

/-- `applyWallHits` preserves the recording flag, body flag and frame
counter. -/
lemma applyWallHits_preserves (n : ℕ) (s : GameState) :
    (applyWallHits s n).isRecording = s.isRecording ∧
    (applyWallHits s n).hasBody = s.hasBody ∧
    (applyWallHits s n).frameCount = s.frameCount := by
  induction n generalizing s with
  | zero => exact ⟨rfl, rfl, rfl⟩
  | succ n ih =>
      have h1 := wallHit_preserves s
      have h2 := ih (onPlayerWallHit s)
      exact ⟨h2.1.trans h1.1, h2.2.1.trans h1.2.1, h2.2.2.trans h1.2.2⟩

/-- `n` wall hits append `n` frames when recording with a body, else
none. -/
lemma applyWallHits_tele_length (n : ℕ) (s : GameState) :
    (applyWallHits s n).telemetryData.length =
      s.telemetryData.length +
        (if s.isRecording = true ∧ s.hasBody = true then n else 0) := by
  induction n generalizing s with
  | zero => simp [applyWallHits]
  | succ n ih =>
      have hpre := wallHit_preserves s
      have h1 := wallHit_tele_length s
      have h2 := ih (onPlayerWallHit s)
      unfold applyWallHits
      rw [h2, h1, hpre.1, hpre.2.1]
      by_cases h : s.isRecording = true ∧ s.hasBody = true
      · simp [h]
        omega
      · simp [h]

/-- The telemetry block of `update` appends one frame exactly when
recording is active after the SPACE toggle and the incremented frame
counter is a multiple of three. -/
lemma updateTelemetry_tele_length (s : GameState) (space : Bool) :
    (updateTelemetry s space).telemetryData.length =
      s.telemetryData.length +
        (if (if space then !s.isRecording else s.isRecording) = true ∧
              (s.frameCount + 1) % 3 = 0 then 1 else 0) := by
  unfold updateTelemetry
  cases space <;> cases hr : s.isRecording <;>
    by_cases h3 : (s.frameCount + 1) % 3 = 0 <;>
      simp [hr, h3]

/-- C9 counterexample input: recording is active, the telemetry log is
empty, the frame counter is zero and the player has a body. -/
def c9State : GameState := ⟨⟨0, 0⟩, 0, true, true, [], 0⟩

/-- C9 is false as stated: on a recorded frame whose (incremented)
frame counter is not a multiple of three — a tick at which the claimed
one-frame-per-three-ticks schedule appends nothing — a single wall
collision nevertheless appends a telemetry frame
(`onPlayerWallHit`, game.js lines 379-381). -/
theorem telemetry_rate_counterexample :
    (gameFrame c9State 1 false).telemetryData.length = 1 ∧
    (gameFrame c9State 1 false).frameCount % 3 ≠ 0 ∧
    c9State.telemetryData.length = 0 ∧
    c9State.isRecording = true := by
  refine ⟨?_, by decide, rfl, rfl⟩
  decide

/-- C9 amended: while recording is active (after the SPACE toggle for
the sampling path), the update loop appends exactly one frame on every
third tick, and each wall collision during a recorded frame appends one
additional frame; while recording is inactive no frame is appended by
either path. -/
theorem telemetry_append_accounting (s : GameState) (hits : ℕ) (space : Bool) :
    (gameFrame s hits space).telemetryData.length =
      s.telemetryData.length +
        (if s.isRecording = true ∧ s.hasBody = true then hits else 0) +
        (if (if space then !s.isRecording else s.isRecording) = true ∧
              (s.frameCount + 1) % 3 = 0 then 1 else 0) := by
  unfold gameFrame
  have hpre := applyWallHits_preserves hits s
  rw [updateTelemetry_tele_length, applyWallHits_tele_length,
    hpre.1, hpre.2.2]

/-- `addWall` leaves the grid alone. -/
lemma addWall_mapGrid (st : EditorState) (x y w h : ℚ) :
    (addWall st x y w h).mapGrid = st.mapGrid := rfl

/-- `addWall` leaves the storage slot alone. -/
lemma addWall_slot (st : EditorState) (x y w h : ℚ) :
    (addWall st x y w h).slot = st.slot := rfl

/-- `drawPiece` touches only the wall lists and the finish-line
sensor. -/
lemma drawPiece_discrete (st : EditorState) (p : Json) (x y : ℚ) :
    (drawPiece st p x y).mapGrid = st.mapGrid ∧
    (drawPiece st p x y).slot = st.slot := by
  cases p with
  | str s =>
      constructor <;>
        simp only [drawPiece, apply_ite EditorState.mapGrid,
          apply_ite EditorState.slot, addWall_mapGrid, addWall_slot, ite_self]
  | null => exact ⟨rfl, rfl⟩
  | bool b => exact ⟨rfl, rfl⟩
  | num q => exact ⟨rfl, rfl⟩
  | arr xs => exact ⟨rfl, rfl⟩

/-- A fold of grid/slot-preserving steps preserves the grid and the
slot. -/
lemma foldl_discrete {α : Type} (g : EditorState → α → EditorState)
    (hg : ∀ s a, (g s a).mapGrid = s.mapGrid ∧ (g s a).slot = s.slot)
    (l : List α) (s : EditorState) :
    (l.foldl g s).mapGrid = s.mapGrid ∧ (l.foldl g s).slot = s.slot := by
  induction l generalizing s with
  | nil => exact ⟨rfl, rfl⟩
  | cons a l ih =>
      have h1 := hg s a
      have h2 := ih (g s a)
      exact ⟨h2.1.trans h1.1, h2.2.trans h1.2⟩

/-- `redrawAllFromGrid` rebuilds walls and sensor but leaves the grid
and the storage slot alone. -/
lemma redraw_discrete (st : EditorState) :
    (redrawAllFromGrid st).mapGrid = st.mapGrid ∧
    (redrawAllFromGrid st).slot = st.slot := by
  unfold redrawAllFromGrid
  apply foldl_discrete
  intro s y
  apply foldl_discrete
  intro s' x
  dsimp only
  split
  · exact drawPiece_discrete _ _ _ _
  · exact ⟨rfl, rfl⟩

/-- Decoding inverts encoding on any grid. -/
lemma jsonToGrid_gridToJson (g : List (List Json)) :
    jsonToGrid (gridToJson g) = g := by
  show List.map _ (List.map Json.arr g) = g
  rw [List.map_map]
  exact List.map_id g

/-- C2: saving any grid of valid `12 × 12` shape and immediately
loading yields the same grid with a `true` result, and any stored value
that fails to parse or fails the shape validation makes `loadTrack`
purge the slot, keep the (initially empty) grid and return `false`;
`loadTrack` is a total function — no branch throws to the caller. -/
theorem grid_roundtrip_and_load_recovery :
    (∀ ed : EditorState, isValidMapGrid (gridToJson ed.mapGrid) = true →
        (loadTrack (saveTrack ed)).1.mapGrid = ed.mapGrid ∧
        (loadTrack (saveTrack ed)).2 = true) ∧
    (∀ s : StoredVal, badStored s = true →
        (loadTrack (initialEditor s)).1.mapGrid = emptyGrid ∧
        (loadTrack (initialEditor s)).1.slot = StoredVal.absent ∧
        (loadTrack (initialEditor s)).2 = false) := by
  constructor
  · intro ed hv
    have hred : loadTrack (saveTrack ed) =
        if isValidMapGrid (gridToJson ed.mapGrid) then
          (redrawAllFromGrid
            { saveTrack ed with mapGrid := jsonToGrid (gridToJson ed.mapGrid) }, true)
        else
          (redrawAllFromGrid { saveTrack ed with slot := StoredVal.absent }, false) := rfl
    rw [hred, if_pos hv]
    refine ⟨?_, rfl⟩
    rw [(redraw_discrete _).1]
    exact jsonToGrid_gridToJson ed.mapGrid
  · intro s hb
    cases s with
    | absent => simp [badStored] at hb
    | malformed =>
        have hred : loadTrack (initialEditor StoredVal.malformed) =
            (redrawAllFromGrid
              { initialEditor StoredVal.malformed with slot := StoredVal.absent },
             false) := rfl
        rw [hred]
        exact ⟨(redraw_discrete
            { initialEditor StoredVal.malformed with slot := StoredVal.absent }).1,
          (redraw_discrete
            { initialEditor StoredVal.malformed with slot := StoredVal.absent }).2,
          rfl⟩
    | parsed j =>
        have hv : isValidMapGrid j = false := by
          simpa [badStored] using hb
        have hred : loadTrack (initialEditor (StoredVal.parsed j)) =
            if isValidMapGrid j then
              (redrawAllFromGrid
                { initialEditor (StoredVal.parsed j) with mapGrid := jsonToGrid j },
               true)
            else
              (redrawAllFromGrid
                { initialEditor (StoredVal.parsed j) with slot := StoredVal.absent },
               false) := rfl
        rw [hred, if_neg (by simp [hv])]
        exact ⟨(redraw_discrete
            { initialEditor (StoredVal.parsed j) with slot := StoredVal.absent }).1,
          (redraw_discrete
            { initialEditor (StoredVal.parsed j) with slot := StoredVal.absent }).2,
          rfl⟩

/-- Witness for C2: round trip on a fresh editor's grid, and recovery
from an unparseable stored string. -/
theorem grid_roundtrip_and_load_recovery_witness :
    ((loadTrack (saveTrack (initialEditor StoredVal.absent))).1.mapGrid =
        (initialEditor StoredVal.absent).mapGrid ∧
     (loadTrack (saveTrack (initialEditor StoredVal.absent))).2 = true) ∧
    ((loadTrack (initialEditor StoredVal.malformed)).1.mapGrid = emptyGrid ∧
     (loadTrack (initialEditor StoredVal.malformed)).1.slot = StoredVal.absent ∧
     (loadTrack (initialEditor StoredVal.malformed)).2 = false) :=
  ⟨grid_roundtrip_and_load_recovery.1 (initialEditor StoredVal.absent) (by decide),
   grid_roundtrip_and_load_recovery.2 StoredVal.malformed (by decide)⟩

/-- C7: a placement whose snapped cell lies outside `[0, 12)` on either
axis leaves the whole editor state untouched (grid, wall bodies,
geometry rectangles, finish-line sensor — and, being a total function,
it throws nothing); an in-bounds placement writes the cell (the
`'road'` eraser writes `null`) and hands the updated grid to the full
rebuild `redrawAllFromGrid`. -/
theorem addTrackPiece_bounds_behavior (st : EditorState) (pieceType : String)
    (x y : ℚ) :
    (¬ (0 ≤ dropGridIndex y ∧ dropGridIndex y < (GRID_HEIGHT : ℤ) ∧
          0 ≤ dropGridIndex x ∧ dropGridIndex x < (GRID_WIDTH : ℤ)) →
        addTrackPiece st pieceType x y = st) ∧
    ((0 ≤ dropGridIndex y ∧ dropGridIndex y < (GRID_HEIGHT : ℤ) ∧
          0 ≤ dropGridIndex x ∧ dropGridIndex x < (GRID_WIDTH : ℤ)) →
      validShape st.mapGrid = true →
        addTrackPiece st pieceType x y =
          redrawAllFromGrid { st with
            mapGrid := st.mapGrid.set (dropGridIndex y).toNat
              ((st.mapGrid.getD (dropGridIndex y).toNat []).set
                (dropGridIndex x).toNat
                (if pieceType = "road" then Json.null else Json.str pieceType)) } ∧
        ((addTrackPiece st pieceType x y).mapGrid.getD
              (dropGridIndex y).toNat []).getD (dropGridIndex x).toNat Json.null =
          (if pieceType = "road" then Json.null else Json.str pieceType)) := by
  constructor
  · intro h
    unfold addTrackPiece
    rw [if_neg h]
  · intro h hshape
    have hset : addTrackPiece st pieceType x y =
        redrawAllFromGrid { st with
          mapGrid := st.mapGrid.set (dropGridIndex y).toNat
            ((st.mapGrid.getD (dropGridIndex y).toNat []).set
              (dropGridIndex x).toNat
              (if pieceType = "road" then Json.null else Json.str pieceType)) } := by
      unfold addTrackPiece
      rw [if_pos h]
    refine ⟨hset, ?_⟩
    have hlen : st.mapGrid.length = GRID_HEIGHT := by
      have := (Bool.and_eq_true _ _).mp hshape
      simpa using this.1
    have hrows : ∀ r ∈ st.mapGrid, r.length = GRID_WIDTH := by
      have := (Bool.and_eq_true _ _).mp hshape
      intro r hr
      have := List.all_eq_true.mp this.2 r hr
      simpa using this
    obtain ⟨hy0, hyN, hx0, hxN⟩ := h
    have hGH : GRID_HEIGHT = 12 := rfl
    have hGW : GRID_WIDTH = 12 := rfl
    have hGHz : (GRID_HEIGHT : ℤ) = 12 := rfl
    have hGWz : (GRID_WIDTH : ℤ) = 12 := rfl
    have hyNat : (dropGridIndex y).toNat < st.mapGrid.length := by
      rw [hlen]; omega
    have hrowlen : (st.mapGrid.getD (dropGridIndex y).toNat []).length = GRID_WIDTH := by
      rw [List.getD_eq_getElem _ _ hyNat]
      exact hrows _ (List.getElem_mem hyNat)
    have hxNat : (dropGridIndex x).toNat <
        (st.mapGrid.getD (dropGridIndex y).toNat []).length := by
      rw [hrowlen]; omega
    rw [hset, (redraw_discrete _).1]
    have houter : (st.mapGrid.set (dropGridIndex y).toNat
          ((st.mapGrid.getD (dropGridIndex y).toNat []).set (dropGridIndex x).toNat
            (if pieceType = "road" then Json.null else Json.str pieceType))).getD
          (dropGridIndex y).toNat [] =
        (st.mapGrid.getD (dropGridIndex y).toNat []).set (dropGridIndex x).toNat
          (if pieceType = "road" then Json.null else Json.str pieceType) := by
      rw [List.getD_eq_getElem _ _ (by simpa using hyNat)]
      exact List.getElem_set_self _
    rw [houter, List.getD_eq_getElem _ _ (by simpa using hxNat)]
    exact List.getElem_set_self _

/-- Witness for C7: a drop far off the canvas is rejected without any
state change, and an in-bounds eraser drop writes `null` at cell
`(1, 1)`. -/
theorem addTrackPiece_bounds_behavior_witness :
    addTrackPiece (initialEditor StoredVal.absent) "wall-t" 5000 500 =
        initialEditor StoredVal.absent ∧
    ((addTrackPiece (initialEditor StoredVal.absent) "road" 150 150).mapGrid.getD
        (dropGridIndex 150).toNat []).getD (dropGridIndex 150).toNat Json.null =
      (if "road" = "road" then Json.null else Json.str "road") := by
  have h49 : dropGridIndex 5000 = 49 := by
    unfold dropGridIndex PIECE_WIDTH
    rw [Int.floor_eq_iff]
    norm_num
  have h4 : dropGridIndex 500 = 4 := by
    unfold dropGridIndex PIECE_WIDTH
    rw [Int.floor_eq_iff]
    norm_num
  have h1 : dropGridIndex 150 = 1 := by
    unfold dropGridIndex PIECE_WIDTH
    rw [Int.floor_eq_iff]
    norm_num
  refine ⟨(addTrackPiece_bounds_behavior (initialEditor StoredVal.absent)
      "wall-t" 5000 500).1 ?_,
    ((addTrackPiece_bounds_behavior (initialEditor StoredVal.absent)
      "road" 150 150).2 ?_ (by decide)).2⟩
  · rw [h49, h4]
    norm_num [GRID_WIDTH]
  · rw [h1]
    norm_num [GRID_WIDTH, GRID_HEIGHT]

/-- C4: the velocity the speed-limiting step leaves on the player's
body never exceeds `MAX_SPEED` in magnitude, and whenever the
post-integration (pre-limit) speed exceeds `MAX_SPEED` the limited
velocity is a positive scalar multiple of the pre-limit velocity with
magnitude exactly `MAX_SPEED`.  (`limitSpeed` acts on the velocity read
from the body after the Matter step of the frame — Phaser runs the
physics world on the scene `UPDATE` event, before `GameScene.update`.) -/
theorem speed_cap_invariant (v : RVec) :
    speedOf (limitSpeed v) ≤ MAX_SPEED ∧
    (MAX_SPEED < speedOf v →
      ∃ c : ℝ, 0 < c ∧ limitSpeed v = ⟨c * v.x, c * v.y⟩ ∧
        speedOf (limitSpeed v) = MAX_SPEED) := by
  have hunf : limitSpeed v =
      if speedOf v > MAX_SPEED then
        ⟨v.x / speedOf v * MAX_SPEED, v.y / speedOf v * MAX_SPEED⟩
      else v := rfl
  have hM : (0 : ℝ) < MAX_SPEED := by norm_num [MAX_SPEED]
  by_cases h : speedOf v > MAX_SPEED
  · have hs : (0 : ℝ) < speedOf v := hM.trans h
    have hs' : speedOf v ≠ 0 := ne_of_gt hs
    have ht : v.x * v.x + v.y * v.y = speedOf v * speedOf v := by
      unfold speedOf
      rw [Real.mul_self_sqrt (add_nonneg (mul_self_nonneg v.x) (mul_self_nonneg v.y))]
    have hsum : v.x / speedOf v * MAX_SPEED * (v.x / speedOf v * MAX_SPEED) +
        v.y / speedOf v * MAX_SPEED * (v.y / speedOf v * MAX_SPEED) =
        MAX_SPEED * MAX_SPEED := by
      field_simp
      linear_combination (MAX_SPEED * MAX_SPEED) * ht
    have hkey : speedOf ⟨v.x / speedOf v * MAX_SPEED, v.y / speedOf v * MAX_SPEED⟩ =
        MAX_SPEED := by
      show Real.sqrt (v.x / speedOf v * MAX_SPEED * (v.x / speedOf v * MAX_SPEED) +
          v.y / speedOf v * MAX_SPEED * (v.y / speedOf v * MAX_SPEED)) = MAX_SPEED
      rw [hsum, Real.sqrt_mul_self hM.le]
    constructor
    · rw [hunf, if_pos h, hkey]
    · intro _
      refine ⟨MAX_SPEED / speedOf v, div_pos hM hs, ?_, ?_⟩
      · rw [hunf, if_pos h]
        ext
        · show v.x / speedOf v * MAX_SPEED = MAX_SPEED / speedOf v * v.x
          ring
        · show v.y / speedOf v * MAX_SPEED = MAX_SPEED / speedOf v * v.y
          ring
      · rw [hunf, if_pos h, hkey]
  · constructor
    · rw [hunf, if_neg h]
      exact not_lt.mp h
    · intro hcon
      exact absurd hcon h

/-- Witness for C4 at the concrete pre-limit velocity `(900, 1200)`,
whose speed is 1500. -/
theorem speed_cap_invariant_witness :
    ∃ c : ℝ, 0 < c ∧ limitSpeed ⟨900, 1200⟩ = ⟨c * 900, c * 1200⟩ ∧
      speedOf (limitSpeed ⟨900, 1200⟩) = MAX_SPEED := by
  have h : MAX_SPEED < speedOf ⟨900, 1200⟩ := by
    show MAX_SPEED < Real.sqrt ((900 : ℝ) * 900 + 1200 * 1200)
    rw [show ((900 : ℝ) * 900 + 1200 * 1200) = 1500 * 1500 by norm_num,
      Real.sqrt_mul_self (by norm_num : (0 : ℝ) ≤ 1500)]
    norm_num [MAX_SPEED]
  have h2 := (speed_cap_invariant ⟨900, 1200⟩).2 h
  simpa using h2

/-- The loop step "replace the best distance when the new one is
smaller" is a binary minimum. -/
lemma if_lt_eq_min (a b : ℝ) : (if b < a then b else a) = min a b := by
  rcases le_or_lt a b with h | h
  · rw [if_neg (not_lt.mpr h), min_eq_left h]
  · rw [if_pos h, min_eq_right h.le]

/-- The candidate loop of `castRays` computes a left fold of `min` over
the candidate distances. -/
lemma foldl_closest_eq_foldl_min (cx cy : ℝ) (l : List RPt) (init : ℝ) :
    l.foldl (fun c p =>
        if distBetween cx cy p.x p.y < c then distBetween cx cy p.x p.y else c) init =
      (l.map (fun p => distBetween cx cy p.x p.y)).foldl min init := by
  induction l generalizing init with
  | nil => rfl
  | cons p ps ih =>
      simp only [List.foldl_cons, List.map_cons]
      rw [if_lt_eq_min, ih]

/-- A `min`-fold never exceeds its seed. -/
lemma foldl_min_le_init (l : List ℝ) (init : ℝ) : l.foldl min init ≤ init := by
  induction l generalizing init with
  | nil => exact le_refl _
  | cons d ds ih =>
      calc (d :: ds).foldl min init = ds.foldl min (min init d) := rfl
        _ ≤ min init d := ih _
        _ ≤ init := min_le_left _ _

/-- A lower bound of the seed and of every element bounds the
`min`-fold below. -/
lemma le_foldl_min (l : List ℝ) (init a : ℝ) (h0 : a ≤ init)
    (h : ∀ x ∈ l, a ≤ x) : a ≤ l.foldl min init := by
  induction l generalizing init with
  | nil => exact h0
  | cons d ds ih =>
      exact ih _ (le_min h0 (h d (List.mem_cons_self d ds)))
        (fun x hx => h x (List.mem_cons_of_mem d hx))

/-- When every element is at most the seed, the seed is absorbed: the
`min`-fold is the minimum of the list (the seed when it is empty). -/
lemma foldl_min_absorb (l : List ℝ) (init : ℝ) (h : ∀ x ∈ l, x ≤ init) :
    l.foldl min init = minOfList l init := by
  cases l with
  | nil => rfl
  | cons d ds =>
      show ds.foldl min (min init d) = ds.foldl min d
      rw [min_eq_right (h d (List.mem_cons_self d ds))]

/-- A point reported by `lineToLine` lies on the first segment, at a
parameter in `[0, 1]`. -/
lemma lineToLine_on_l1 {l1 l2 : RSeg} {p : RPt} (h : lineToLine l1 l2 = some p) :
    ∃ u : ℝ, 0 ≤ u ∧ u ≤ 1 ∧
      p.x = l1.x1 + u * (l1.x2 - l1.x1) ∧ p.y = l1.y1 + u * (l1.y2 - l1.y1) := by
  unfold lineToLine at h
  by_cases hd : llDenom l1 l2 = 0
  · rw [if_pos hd] at h
    exact absurd h (by simp)
  · rw [if_neg hd] at h
    by_cases hc : 0 ≤ llNumA l1 l2 / llDenom l1 l2 ∧ llNumA l1 l2 / llDenom l1 l2 ≤ 1 ∧
        0 ≤ llNumB l1 l2 / llDenom l1 l2 ∧ llNumB l1 l2 / llDenom l1 l2 ≤ 1
    · rw [if_pos hc] at h
      obtain ⟨hA0, hA1, _, _⟩ := hc
      refine ⟨llNumA l1 l2 / llDenom l1 l2, hA0, hA1, ?_, ?_⟩
      · rw [← Option.some_inj.mp h]
      · rw [← Option.some_inj.mp h]
    · rw [if_neg hc] at h
      exact absurd h (by simp)

/-- The simultaneity identity of the two-segment intersection: the
point `lineToLine` parameterises along the first line also lies on the
second line at parameter `uB = numB / deNom` (x-coordinate). -/
lemma cross_identity_x (l1 l2 : RSeg) (hd : llDenom l1 l2 ≠ 0) :
    l1.x1 + llNumA l1 l2 / llDenom l1 l2 * (l1.x2 - l1.x1) =
      l2.x1 + llNumB l1 l2 / llDenom l1 l2 * (l2.x2 - l2.x1) := by
  unfold llNumA llNumB llDenom at *
  field_simp
  ring

/-- The simultaneity identity, y-coordinate. -/
lemma cross_identity_y (l1 l2 : RSeg) (hd : llDenom l1 l2 ≠ 0) :
    l1.y1 + llNumA l1 l2 / llDenom l1 l2 * (l1.y2 - l1.y1) =
      l2.y1 + llNumB l1 l2 / llDenom l1 l2 * (l2.y2 - l2.y1) := by
  unfold llNumA llNumB llDenom at *
  field_simp
  ring

/-- A point reported by `lineToLine` lies on the second segment, at a
parameter in `[0, 1]`. -/
lemma lineToLine_on_l2 {l1 l2 : RSeg} {p : RPt} (h : lineToLine l1 l2 = some p) :
    ∃ u : ℝ, 0 ≤ u ∧ u ≤ 1 ∧
      p.x = l2.x1 + u * (l2.x2 - l2.x1) ∧ p.y = l2.y1 + u * (l2.y2 - l2.y1) := by
  unfold lineToLine at h
  by_cases hd : llDenom l1 l2 = 0
  · rw [if_pos hd] at h
    exact absurd h (by simp)
  · rw [if_neg hd] at h
    by_cases hc : 0 ≤ llNumA l1 l2 / llDenom l1 l2 ∧ llNumA l1 l2 / llDenom l1 l2 ≤ 1 ∧
        0 ≤ llNumB l1 l2 / llDenom l1 l2 ∧ llNumB l1 l2 / llDenom l1 l2 ≤ 1
    · rw [if_pos hc] at h
      obtain ⟨_, _, hB0, hB1⟩ := hc
      refine ⟨llNumB l1 l2 / llDenom l1 l2, hB0, hB1, ?_, ?_⟩
      · rw [← Option.some_inj.mp h]
        exact cross_identity_x l1 l2 hd
      · rw [← Option.some_inj.mp h]
        exact cross_identity_y l1 l2 hd
    · rw [if_neg hc] at h
      exact absurd h (by simp)

/-- Distance from the ray origin to the point at parameter `u` along
the ray segment: the ray direction `(cos a, sin a)` is a unit vector,
so the distance is `u · RAY_LENGTH`. -/
lemma dist_on_raySeg (cx cy a u : ℝ) (h0 : 0 ≤ u) :
    distBetween cx cy (cx + u * (cx + Real.cos a * RAY_LENGTH - cx))
        (cy + u * (cy + Real.sin a * RAY_LENGTH - cy)) = u * RAY_LENGTH := by
  have hL : (0 : ℝ) ≤ RAY_LENGTH := by norm_num [RAY_LENGTH]
  have hsq : (cx + u * (cx + Real.cos a * RAY_LENGTH - cx) - cx) *
        (cx + u * (cx + Real.cos a * RAY_LENGTH - cx) - cx) +
      (cy + u * (cy + Real.sin a * RAY_LENGTH - cy) - cy) *
        (cy + u * (cy + Real.sin a * RAY_LENGTH - cy) - cy) =
      (u * RAY_LENGTH) * (u * RAY_LENGTH) := by
    have hcs := Real.sin_sq_add_cos_sq a
    linear_combination (u * u * RAY_LENGTH * RAY_LENGTH) * hcs
  unfold distBetween
  rw [hsq, Real.sqrt_mul_self (mul_nonneg h0 hL)]

/-- Every candidate hit point of a ray lies on the ray segment, so its
distance from the origin is at most `RAY_LENGTH`. -/
lemma rayCandidates_dist_le (cx cy a : ℝ) (walls : List RRect)
    (polys : List (List RPt)) (p : RPt)
    (hp : p ∈ rayCandidates
        ⟨cx, cy, cx + Real.cos a * RAY_LENGTH, cy + Real.sin a * RAY_LENGTH⟩
        walls polys) :
    distBetween cx cy p.x p.y ≤ RAY_LENGTH := by
  have hL : (0 : ℝ) ≤ RAY_LENGTH := by norm_num [RAY_LENGTH]
  have key : ∀ u : ℝ, 0 ≤ u → u ≤ 1 →
      ∀ q : RPt, q.x = cx + u * (cx + Real.cos a * RAY_LENGTH - cx) →
        q.y = cy + u * (cy + Real.sin a * RAY_LENGTH - cy) →
        distBetween cx cy q.x q.y ≤ RAY_LENGTH := by
    intro u h0 h1 q hqx hqy
    rw [hqx, hqy, dist_on_raySeg cx cy a u h0]
    calc u * RAY_LENGTH ≤ 1 * RAY_LENGTH := mul_le_mul_of_nonneg_right h1 hL
      _ = RAY_LENGTH := one_mul _
  unfold rayCandidates at hp
  rw [List.mem_append] at hp
  rcases hp with hp | hp
  · rw [List.mem_flatten] at hp
    obtain ⟨lpts, hl, hpl⟩ := hp
    rw [List.mem_map] at hl
    obtain ⟨r, _, rfl⟩ := hl
    unfold getLineToRectangle at hpl
    rw [List.mem_filterMap] at hpl
    obtain ⟨e, _, hint⟩ := hpl
    obtain ⟨u, h0, h1, hx, hy⟩ := lineToLine_on_l2 hint
    exact key u h0 h1 p hx hy
  · rw [List.mem_flatten] at hp
    obtain ⟨lpts, hl, hpl⟩ := hp
    rw [List.mem_map] at hl
    obtain ⟨pts, _, rfl⟩ := hl
    unfold polyIntersections at hpl
    by_cases hlen : pts.length < 2
    · rw [if_pos hlen] at hpl
      exact absurd hpl (List.not_mem_nil p)
    · rw [if_neg hlen] at hpl
      rw [List.mem_filterMap] at hpl
      obtain ⟨e, _, hint⟩ := hpl
      obtain ⟨u, h0, h1, hx, hy⟩ := lineToLine_on_l1 hint
      exact key u h0 h1 p hx hy

/-- The reading of one ray equals the claim-side minimum candidate
distance divided by `RAY_LENGTH`, and lies in `[0, 1]`. -/
lemma castSingleRay_spec (cx cy a : ℝ) (walls : List RRect)
    (polys : List (List RPt)) :
    castSingleRay cx cy a walls polys =
      minHitDist cx cy (rayCandidates
        ⟨cx, cy, cx + Real.cos a * RAY_LENGTH, cy + Real.sin a * RAY_LENGTH⟩
        walls polys) / RAY_LENGTH ∧
    0 ≤ castSingleRay cx cy a walls polys ∧
    castSingleRay cx cy a walls polys ≤ 1 := by
  have hL : (0 : ℝ) < RAY_LENGTH := by norm_num [RAY_LENGTH]
  have hunf : castSingleRay cx cy a walls polys =
      ((rayCandidates
          ⟨cx, cy, cx + Real.cos a * RAY_LENGTH, cy + Real.sin a * RAY_LENGTH⟩
          walls polys).foldl
        (fun c p =>
          if distBetween cx cy p.x p.y < c then distBetween cx cy p.x p.y else c)
        RAY_LENGTH) / RAY_LENGTH := rfl
  have hfold := foldl_closest_eq_foldl_min cx cy
    (rayCandidates ⟨cx, cy, cx + Real.cos a * RAY_LENGTH, cy + Real.sin a * RAY_LENGTH⟩
      walls polys) RAY_LENGTH
  have hle : ∀ d ∈ (rayCandidates
      ⟨cx, cy, cx + Real.cos a * RAY_LENGTH, cy + Real.sin a * RAY_LENGTH⟩
      walls polys).map (fun p => distBetween cx cy p.x p.y), d ≤ RAY_LENGTH := by
    intro d hd
    rw [List.mem_map] at hd
    obtain ⟨p, hp, rfl⟩ := hd
    exact rayCandidates_dist_le cx cy a walls polys p hp
  have habs := foldl_min_absorb _ RAY_LENGTH hle
  refine ⟨?_, ?_, ?_⟩
  · rw [hunf, hfold, habs]
    rfl
  · rw [hunf, hfold]
    apply div_nonneg _ hL.le
    apply le_foldl_min _ _ _ hL.le
    intro d hd
    rw [List.mem_map] at hd
    obtain ⟨p, _, rfl⟩ := hd
    exact Real.sqrt_nonneg _
  · rw [hunf, hfold]
    rw [div_le_one hL]
    exact foldl_min_le_init _ _

/-- Entry `i` of the `castRays` output array is the reading of ray
`i`. -/
lemma castRays_entry (car : Pose) (walls : List RRect)
    (polys : List (List RPt)) (i : Fin 7) :
    (castRays car walls polys).getD i.val 0 =
      castSingleRay car.x car.y ((rayAngles car.rotation).getD i.val 0) walls polys := by
  fin_cases i <;> rfl

/-- C1: each entry of the `castRays` output equals the minimum, over
all ray–wall-rectangle and ray–hull-edge intersection points, of the
distance from the agent origin to the hit point (defaulting to
`RAY_LENGTH` when there is no hit), divided by `RAY_LENGTH`; every
entry lies in `[0, 1]`; and with no walls and no hulls every entry is
exactly 1. -/
theorem castRays_min_normalized (car : Pose) (walls : List RRect)
    (polys : List (List RPt)) (i : Fin 7) :
    (castRays car walls polys).getD i.val 0 =
        minHitDist car.x car.y (rayCandidates (raySeg car i) walls polys) /
          RAY_LENGTH ∧
    0 ≤ (castRays car walls polys).getD i.val 0 ∧
    (castRays car walls polys).getD i.val 0 ≤ 1 ∧
    (walls = [] ∧ polys = [] →
      (castRays car walls polys).getD i.val 0 = 1) := by
  have hb := castRays_entry car walls polys i
  have hs := castSingleRay_spec car.x car.y
    ((rayAngles car.rotation).getD i.val 0) walls polys
  refine ⟨?_, ?_, ?_, ?_⟩
  · rw [hb]
    exact hs.1
  · rw [hb]
    exact hs.2.1
  · rw [hb]
    exact hs.2.2.trans (le_refl 1)
  · rintro ⟨rfl, rfl⟩
    rw [hb, hs.1]
    show RAY_LENGTH / RAY_LENGTH = 1
    norm_num [RAY_LENGTH]

/-- Witness for C1: with no walls and no hulls, the front ray of an
agent at the origin reads exactly 1. -/
theorem castRays_min_normalized_witness :
    ([] : List RRect) = [] ∧ ([] : List (List RPt)) = [] ∧
    (castRays ⟨0, 0, 0⟩ [] []).getD (0 : Fin 7).val 0 = 1 :=
  ⟨rfl, rfl, (castRays_min_normalized ⟨0, 0, 0⟩ [] [] 0).2.2.2 ⟨rfl, rfl⟩⟩

end Racing
